import Mathlib

/-!
# Verification of the librus-rs session and request-execution core

Shallow embedding of the authenticated-session layer of the `librus-rs`
client (`src/lib.rs`, `src/error.rs`): the four-step login handshake, the
lazy messaging bootstrap, the request executors, the typed decoder, and the
two pure content transforms (base64 message decoding and HTML stripping).

HTTP transport is modelled as an oracle: each network interaction is an
explicit `Except ReqwestError Response` value (or a function from URL to
such a value), standing for the outcome the reqwest transport would have
delivered.  Machine integers (HTTP status codes, bytes) are `Nat`.
-/

namespace LibrusRs

/-- Opaque cause of a transport-level failure (`reqwest::Error`). -/
structure ReqwestError where
  msg : String
deriving DecidableEq, Repr

/-- Opaque structural-deserialization error (`serde_json::Error`). -/
structure JsonError where
  msg : String
deriving DecidableEq, Repr

/-- Decidable equality for `Except`, needed so concrete transport outcomes
can be compared by `decide` in witnesses. -/
def exceptEqDec {ε α : Type} [DecidableEq ε] [DecidableEq α] :
    (a b : Except ε α) → Decidable (a = b)
  | .error a, .error b =>
    if h : a = b then .isTrue (by rw [h]) else .isFalse (by intro hc; cases hc; exact h rfl)
  | .error _, .ok _ => .isFalse (by intro hc; cases hc)
  | .ok _, .error _ => .isFalse (by intro hc; cases hc)
  | .ok a, .ok b =>
    if h : a = b then .isTrue (by rw [h]) else .isFalse (by intro hc; cases hc; exact h rfl)

instance {ε α : Type} [DecidableEq ε] [DecidableEq α] : DecidableEq (Except ε α) :=
  exceptEqDec

/-- An HTTP response as the client observes it: a status code plus the
outcome of reading the body as text (`reqwest::Response::text` can itself
fail at the transport level, which the source maps to `Error::Request`). -/
structure Response where
  status : Nat
  text : Except ReqwestError String
deriving DecidableEq, Repr

/-- The cookie-retaining HTTP handle built at the start of `authenticate`
(`reqwest::Client::builder().cookie_store(true).build()`).  Its internal
cookie jar is external state owned by reqwest; the embedding keeps only the
configuration the source sets. -/
structure HttpClient where
  cookie_store : Bool
deriving DecidableEq, Repr

/-- The error enum of `src/error.rs`, one constructor per variant. -/
inductive Error where
  | Authentication : Error
  | MissingEnvVar (name : String) : Error
  | MissingCredentials (name : String) : Error
  | HttpClient (cause : ReqwestError) : Error
  | Request (cause : ReqwestError) : Error
  | ApiError (status : Nat) (body : String) : Error
  | Parse (source : JsonError) (body : String) : Error
deriving DecidableEq, Repr

/-- The client/session state of `src/lib.rs` (`struct Client`): the HTTP
handle plus the lazy messaging-bootstrap flag. -/
structure Client where
  http : HttpClient
  messages_initialized : Bool
deriving DecidableEq, Repr

def SYNERGIA_API_BASE : String := "https://synergia.librus.pl/gateway/api/2.0/"

def MESSAGES_API_BASE : String := "https://wiadomosci.librus.pl/api/"

def AUTH_URL : String := "https://api.librus.pl/OAuth/Authorization?client_id=46"

def AUTH_TEST_URL : String :=
  "https://api.librus.pl/OAuth/Authorization?client_id=46&response_type=code&scope=mydata"

def AUTH_GRANT_URL : String := "https://api.librus.pl/OAuth/Authorization/Grant?client_id=46"

def TOKEN_INFO_URL : String := "https://synergia.librus.pl/gateway/api/2.0/Auth/TokenInfo/"

def MESSAGES_INIT_URL : String := "https://synergia.librus.pl/wiadomosci3"

/-- Transport oracle for the four sequential requests of `authenticate`,
plus the outcome of building the HTTP client itself.  Each field is the
result the corresponding `send()` (or `build()`) would return. -/
structure Transport where
  clientBuild : Except ReqwestError HttpClient
  authTest : Except ReqwestError Response
  authPost : Except ReqwestError Response
  authGrant : Except ReqwestError Response
  tokenInfo : Except ReqwestError Response
deriving DecidableEq, Repr

/-- `Client::authenticate` (src/lib.rs:361-399): build the cookie-retaining
client, issue the four handshake requests in order, abort on the first
transport failure, then use the token-info status as the sole oracle:
any status other than 200 is `Error::Authentication`; 200 yields a client
with `messages_initialized = false`.  No response body is ever read. -/
def authenticate (username password : String) (t : Transport) : Except Error Client :=
  let form_params := [("action", "login"), ("login", username), ("pass", password)]
  match t.clientBuild with
  | .error e => .error (.HttpClient e)
  | .ok http =>
    match t.authTest with
    | .error e => .error (.Request e)
    | .ok _ =>
      match t.authPost with
      | .error e => .error (.Request e)
      | .ok _ =>
        match t.authGrant with
        | .error e => .error (.Request e)
        | .ok _ =>
          match t.tokenInfo with
          | .error e => .error (.Request e)
          | .ok token_response =>
            if token_response.status ≠ 200 then
              .error .Authentication
            else
              let _ := form_params
              .ok { http := http, messages_initialized := false }

/-- `reqwest::StatusCode::is_success`: status in 200..=299. -/
def statusIsSuccess (status : Nat) : Bool :=
  200 ≤ status && status < 300

/-- `Client::get_api` (src/lib.rs:401-422): issue a GET against the
Synergia base + endpoint.  A transport failure (of the send or of the body
read) is `Error::Request`; a non-2xx status becomes `Error::ApiError`
carrying the status and the full body text; a 2xx status yields the body.
`net` is the transport oracle mapping the requested URL to its outcome. -/
def get_api (c : Client) (net : String → Except ReqwestError Response)
    (endpoint : String) : Except Error String :=
  let _ := c
  let url := SYNERGIA_API_BASE ++ endpoint
  match net url with
  | .error e => .error (.Request e)
  | .ok response =>
    match response.text with
    | .error e => .error (.Request e)
    | .ok text =>
      if !statusIsSuccess response.status then
        .error (.ApiError response.status text)
      else
        .ok text

/-- `Client::get_messages_api` (src/lib.rs:424-439): identical
classification against the messaging base. -/
def get_messages_api (c : Client) (net : String → Except ReqwestError Response)
    (endpoint : String) : Except Error String :=
  let _ := c
  let url := MESSAGES_API_BASE ++ endpoint
  match net url with
  | .error e => .error (.Request e)
  | .ok response =>
    match response.text with
    | .error e => .error (.Request e)
    | .ok text =>
      if !statusIsSuccess response.status then
        .error (.ApiError response.status text)
      else
        .ok text

/-- `Client::ensure_messages_initialized` (src/lib.rs:441-452): no-op when
the flag is already set; otherwise one GET to the bootstrap URL, whose body
is discarded.  A transport failure propagates as `Error::Request` and
leaves the client unchanged; on success the flag is set.  The third
component instruments the embedding with the list of URLs actually
requested, so that request counts can be stated. -/
def ensure_messages_initialized (c : Client)
    (net : String → Except ReqwestError Response) :
    Except Error Unit × Client × List String :=
  if c.messages_initialized then
    (.ok (), c, [])
  else
    match net MESSAGES_INIT_URL with
    | .error e => (.error (.Request e), c, [MESSAGES_INIT_URL])
    | .ok _ => (.ok (), { c with messages_initialized := true }, [MESSAGES_INIT_URL])

/-- `Client::from_env` (src/lib.rs:312-318): resolve the two credentials
from the process environment (modelled as a partial map), failing with
`MissingEnvVar` naming the first absent variable (username checked first),
then run the handshake. -/
def from_env (env : String → Option String) (t : Transport) : Except Error Client :=
  match env "LIBRUS_USERNAME" with
  | none => .error (.MissingEnvVar "LIBRUS_USERNAME")
  | some username =>
    match env "LIBRUS_PASSWORD" with
    | none => .error (.MissingEnvVar "LIBRUS_PASSWORD")
    | some password => authenticate username password t

/-- `Client::me` (src/lib.rs:475-481), representative of every typed
accessor: fetch via `get_api`, then structurally decode the body.  The
serde-derived deserializer for the target shape is an external collaborator
(the `serde_json` crate), so the embedding abstracts it as `parse`; the
target shape is a type parameter.  On decode failure the source constructs
`Error::Parse` carrying the underlying error and the original body. -/
def me {T : Type} (c : Client) (net : String → Except ReqwestError Response)
    (parse : String → Except JsonError T) : Except Error T :=
  match get_api c net "Me" with
  | .error e => .error e
  | .ok json =>
    match parse json with
    | .error e => .error (.Parse e json)
    | .ok v => .ok v

/-- Shared helper: how `get_api` classifies an exchange that succeeded at
the transport level, as a function of the status code. -/
theorem get_api_of_ok (c : Client) (net : String → Except ReqwestError Response)
    (endpoint : String) (st : Nat) (body : String)
    (hnet : net (SYNERGIA_API_BASE ++ endpoint) = .ok ⟨st, .ok body⟩) :
    get_api c net endpoint =
      if 200 ≤ st ∧ st < 300 then .ok body
      else .error (.ApiError st body) := by
  by_cases h1 : 200 ≤ st <;> by_cases h2 : st < 300 <;>
    simp [get_api, statusIsSuccess, hnet, h1, h2]

/-- C1: in a handshake where the client build and all four requests succeed
at the transport level, the token-info status is the sole oracle: any
status other than 200 yields `Error.Authentication`, status 200 yields a
client whose `messages_initialized` flag is false, and no response body
(or the status of the three earlier responses) influences the outcome —
the statement quantifies over all of them. -/
theorem claim_c1_token_status_oracle (username password : String) (http : HttpClient)
    (r1 r2 r3 : Response) (st : Nat) (tokenText : Except ReqwestError String) :
    authenticate username password
        ⟨.ok http, .ok r1, .ok r2, .ok r3, .ok ⟨st, tokenText⟩⟩ =
      if st = 200 then .ok { http := http, messages_initialized := false }
      else .error .Authentication := by
  unfold authenticate
  by_cases h : st = 200 <;> simp [h]

/-- C2: when the academic-API exchange succeeds at the transport level, a
status outside 200–299 yields `Error.ApiError` carrying exactly that
status and the exact body (never a transport error), and a status within
200–299 yields the body itself. -/
theorem claim_c2_api_status_classification (c : Client)
    (net : String → Except ReqwestError Response) (endpoint : String)
    (st : Nat) (body : String)
    (hnet : net (SYNERGIA_API_BASE ++ endpoint) = .ok ⟨st, .ok body⟩) :
    get_api c net endpoint =
      if 200 ≤ st ∧ st < 300 then .ok body
      else .error (.ApiError st body) :=
  get_api_of_ok c net endpoint st body hnet

/-- Client value used by concrete witnesses. -/
def witnessClient : Client :=
  { http := { cookie_store := true }, messages_initialized := false }

/-- Transport oracle answering every URL with a 404 and a diagnostic body. -/
def witnessNet404 : String → Except ReqwestError Response :=
  fun _ => .ok { status := 404, text := .ok "not found" }

theorem claim_c2_witness :
    witnessNet404 (SYNERGIA_API_BASE ++ "Me") = .ok ⟨404, .ok "not found"⟩ ∧
    get_api witnessClient witnessNet404 "Me" = .error (.ApiError 404 "not found") := by
  refine ⟨rfl, ?_⟩
  have h := claim_c2_api_status_classification witnessClient witnessNet404 "Me"
    404 "not found" rfl
  rw [if_neg (by omega)] at h
  exact h

/-- C3: with the flag still false, a transport failure of the bootstrap
request surfaces as `Error.Request` and leaves the client unchanged — in
particular `messages_initialized` stays false. -/
theorem claim_c3_bootstrap_transport_failure (c : Client)
    (net : String → Except ReqwestError Response) (e : ReqwestError)
    (hflag : c.messages_initialized = false)
    (hnet : net MESSAGES_INIT_URL = .error e) :
    ensure_messages_initialized c net =
      (.error (.Request e), c, [MESSAGES_INIT_URL]) ∧
    ((ensure_messages_initialized c net).2.1).messages_initialized = false := by
  unfold ensure_messages_initialized
  simp [hflag, hnet]

/-- Transport oracle failing every request at the transport level. -/
def witnessNetFail : String → Except ReqwestError Response :=
  fun _ => .error { msg := "connection reset" }

theorem claim_c3_witness :
    witnessClient.messages_initialized = false ∧
    witnessNetFail MESSAGES_INIT_URL = .error { msg := "connection reset" } ∧
    ensure_messages_initialized witnessClient witnessNetFail =
      (.error (.Request { msg := "connection reset" }), witnessClient,
        [MESSAGES_INIT_URL]) := by
  refine ⟨rfl, rfl, ?_⟩
  exact (claim_c3_bootstrap_transport_failure witnessClient witnessNetFail
    { msg := "connection reset" } rfl rfl).1

/-- C4: if the flag is already true the call succeeds issuing no request;
and of two sequential calls whose first succeeds, the first issues exactly
the one bootstrap request, the second is a no-op leaving the client
unchanged, so the two calls issue exactly one request in total. -/
theorem claim_c4_idempotent (c : Client)
    (net1 net2 : String → Except ReqwestError Response) (r : Response)
    (hflag : c.messages_initialized = false)
    (hnet : net1 MESSAGES_INIT_URL = .ok r) :
    (∀ c2 : Client, c2.messages_initialized = true →
      ensure_messages_initialized c2 net2 = (.ok (), c2, [])) ∧
    ensure_messages_initialized c net1 =
      (.ok (), { c with messages_initialized := true }, [MESSAGES_INIT_URL]) ∧
    ensure_messages_initialized { c with messages_initialized := true } net2 =
      (.ok (), { c with messages_initialized := true }, []) ∧
    ((ensure_messages_initialized c net1).2.2 ++
      (ensure_messages_initialized
        (ensure_messages_initialized c net1).2.1 net2).2.2).length = 1 := by
  refine ⟨?_, ?_, ?_, ?_⟩
  · intro c2 h2
    unfold ensure_messages_initialized
    simp [h2]
  · unfold ensure_messages_initialized
    simp [hflag, hnet]
  · unfold ensure_messages_initialized
    simp
  · unfold ensure_messages_initialized
    simp [hflag, hnet]

/-- Transport oracle answering every URL with an empty 200 response. -/
def witnessNetOk : String → Except ReqwestError Response :=
  fun _ => .ok { status := 200, text := .ok "" }

theorem claim_c4_witness :
    witnessClient.messages_initialized = false ∧
    witnessNetOk MESSAGES_INIT_URL = .ok { status := 200, text := .ok "" } ∧
    ensure_messages_initialized witnessClient witnessNetOk =
      (.ok (), { witnessClient with messages_initialized := true },
        [MESSAGES_INIT_URL]) ∧
    ensure_messages_initialized
        { witnessClient with messages_initialized := true } witnessNetOk =
      (.ok (), { witnessClient with messages_initialized := true }, []) := by
  have h := claim_c4_idempotent witnessClient witnessNetOk witnessNetOk
    { status := 200, text := .ok "" } rfl rfl
  exact ⟨rfl, rfl, h.2.1, h.2.2.1⟩

/-- C5: when the fetched body fails typed decoding, the accessor returns
`Error.Parse` carrying the underlying structural error and the original
body itself (byte-for-byte, as the very same string), never a partially
decoded value. -/
theorem claim_c5_parse_error_retains_body {T : Type} (c : Client)
    (net : String → Except ReqwestError Response)
    (parse : String → Except JsonError T) (json : String) (e : JsonError)
    (hnet : net (SYNERGIA_API_BASE ++ "Me") = .ok ⟨200, .ok json⟩)
    (hparse : parse json = .error e) :
    me c net parse = .error (.Parse e json) := by
  unfold me
  rw [get_api_of_ok c net "Me" 200 json hnet, if_pos (by omega)]
  simp [hparse]

/-- Parser that rejects every body, standing for a serde decode failure. -/
def witnessParseFailing : String → Except JsonError Nat :=
  fun _ => .error { msg := "expected value" }

/-- Transport oracle answering every URL with status 200 and body `oops`. -/
def witnessNet200 : String → Except ReqwestError Response :=
  fun _ => .ok { status := 200, text := .ok "oops" }

theorem claim_c5_witness :
    witnessNet200 (SYNERGIA_API_BASE ++ "Me") = .ok ⟨200, .ok "oops"⟩ ∧
    witnessParseFailing "oops" = .error { msg := "expected value" } ∧
    me witnessClient witnessNet200 witnessParseFailing =
      .error (.Parse { msg := "expected value" } "oops") :=
  ⟨rfl, rfl, claim_c5_parse_error_retains_body witnessClient witnessNet200
    witnessParseFailing "oops" { msg := "expected value" } rfl rfl⟩

/-- C8: environment credential resolution checks the username variable
first; an unset username variable yields `MissingEnvVar "LIBRUS_USERNAME"`
regardless of the password variable, and a set username with unset
password yields `MissingEnvVar "LIBRUS_PASSWORD"` — always exactly one
variable name. -/
theorem claim_c8_env_username_checked_first :
    (∀ (env : String → Option String) (t : Transport),
      env "LIBRUS_USERNAME" = none →
        from_env env t = .error (.MissingEnvVar "LIBRUS_USERNAME")) ∧
    (∀ (env : String → Option String) (t : Transport) (u : String),
      env "LIBRUS_USERNAME" = some u → env "LIBRUS_PASSWORD" = none →
        from_env env t = .error (.MissingEnvVar "LIBRUS_PASSWORD")) := by
  constructor
  · intro env t h
    unfold from_env
    simp [h]
  · intro env t u hu hp
    unfold from_env
    simp [hu, hp]

/-- Environment with only the password variable set. -/
def witnessEnvNoUser : String → Option String :=
  fun name => if name = "LIBRUS_PASSWORD" then some "secret" else none

/-- Environment with only the username variable set. -/
def witnessEnvNoPass : String → Option String :=
  fun name => if name = "LIBRUS_USERNAME" then some "user" else none

/-- Transport oracle for witnesses that never reach the network decision. -/
def witnessTransport : Transport :=
  { clientBuild := .ok { cookie_store := true }
    authTest := .ok { status := 200, text := .ok "" }
    authPost := .ok { status := 200, text := .ok "" }
    authGrant := .ok { status := 200, text := .ok "" }
    tokenInfo := .ok { status := 200, text := .ok "" } }

theorem claim_c8_witness :
    witnessEnvNoUser "LIBRUS_USERNAME" = none ∧
    witnessEnvNoUser "LIBRUS_PASSWORD" = some "secret" ∧
    from_env witnessEnvNoUser witnessTransport =
      .error (.MissingEnvVar "LIBRUS_USERNAME") ∧
    witnessEnvNoPass "LIBRUS_USERNAME" = some "user" ∧
    witnessEnvNoPass "LIBRUS_PASSWORD" = none ∧
    from_env witnessEnvNoPass witnessTransport =
      .error (.MissingEnvVar "LIBRUS_PASSWORD") := by
  refine ⟨by decide, by decide, ?_, by decide, by decide, ?_⟩
  · exact claim_c8_env_username_checked_first.1 witnessEnvNoUser witnessTransport
      (by decide)
  · exact claim_c8_env_username_checked_first.2 witnessEnvNoPass witnessTransport
      "user" (by decide) (by decide)

/-- One client operation as it affects session state.  Synergia accessors
(`me`, `grades`, … via `get_api`) take `&self` and cannot mutate the
client; messaging accessors (`unread_counts`, `inbox_messages`, `message`,
`attachment`, …) first run `ensure_messages_initialized` and then issue
requests through `&self`, so their entire state effect is that of the
bootstrap step. -/
inductive Op where
  | synergiaGet (net : String → Except ReqwestError Response) (endpoint : String) : Op
  | messagingCall (net : String → Except ReqwestError Response) (endpoint : String) : Op

/-- State evolution of one client operation (src/lib.rs:401-452 and each
accessor): only the messaging bootstrap can change the client. -/
def runOp (c : Client) (op : Op) : Client :=
  match op with
  | .synergiaGet _ _ => c
  | .messagingCall net _ => (ensure_messages_initialized c net).2.1

/-- A client produced by a successful handshake has the flag false. -/
theorem authenticate_ok_flag (u p : String) (t : Transport) (c : Client)
    (h : authenticate u p t = .ok c) : c.messages_initialized = false := by
  unfold authenticate at h
  repeat' split at h
  all_goals simp_all
  exact congrArg Client.messages_initialized h.symm

/-- No operation touches the HTTP handle stored in the client. -/
theorem runOp_http (c : Client) (op : Op) : (runOp c op).http = c.http := by
  cases op with
  | synergiaGet net endpoint => rfl
  | messagingCall net endpoint =>
    unfold runOp ensure_messages_initialized
    by_cases h : c.messages_initialized <;> cases hn : net MESSAGES_INIT_URL <;> simp [h, hn]

/-- Every operation either leaves the client unchanged or flips the flag
from false to true, changing nothing else. -/
theorem runOp_step (c : Client) (op : Op) :
    runOp c op = c ∨
      (c.messages_initialized = false ∧
        runOp c op = { c with messages_initialized := true }) := by
  cases op with
  | synergiaGet net endpoint => exact Or.inl rfl
  | messagingCall net endpoint =>
    unfold runOp ensure_messages_initialized
    by_cases h : c.messages_initialized <;> cases hn : net MESSAGES_INIT_URL <;>
      simp [h, hn]

/-- Once the flag is true, no operation changes the client at all. -/
theorem runOp_of_ready (c : Client) (op : Op)
    (h : c.messages_initialized = true) : runOp c op = c := by
  cases op with
  | synergiaGet net endpoint => rfl
  | messagingCall net endpoint =>
    unfold runOp ensure_messages_initialized
    simp [h]

/-- Once the flag is true, any sequence of operations is a no-op. -/
theorem foldl_runOp_of_ready (ops : List Op) (c : Client)
    (h : c.messages_initialized = true) : ops.foldl runOp c = c := by
  induction ops generalizing c with
  | nil => rfl
  | cons op ops ih =>
    simp only [List.foldl_cons, runOp_of_ready c op h]
    exact ih c h

/-- C9: the session invariant.  A successful handshake starts the flag at
false; every subsequent operation preserves the HTTP handle (the flag is
the only mutable field); each step either leaves the client unchanged or
flips the flag false → true; once true no operation (and hence no sequence
of operations) ever changes the client again — the flag never reverts. -/
theorem claim_c9_flag_monotonic :
    (∀ (u p : String) (t : Transport) (c : Client),
      authenticate u p t = .ok c → c.messages_initialized = false) ∧
    (∀ (c : Client) (op : Op), (runOp c op).http = c.http) ∧
    (∀ (c : Client) (op : Op),
      runOp c op = c ∨
        (c.messages_initialized = false ∧
          runOp c op = { c with messages_initialized := true })) ∧
    (∀ (c : Client) (op : Op), c.messages_initialized = true → runOp c op = c) ∧
    (∀ (c : Client) (ops : List Op), c.messages_initialized = true →
      ops.foldl runOp c = c) :=
  ⟨authenticate_ok_flag, runOp_http, runOp_step,
    runOp_of_ready, fun c ops h => foldl_runOp_of_ready ops c h⟩

/-- The client with the messaging flag already set, for witnesses. -/
def witnessReadyClient : Client :=
  { http := { cookie_store := true }, messages_initialized := true }

theorem claim_c9_witness :
    authenticate "user" "pw" witnessTransport = .ok witnessClient ∧
    witnessClient.messages_initialized = false ∧
    witnessReadyClient.messages_initialized = true ∧
    [Op.messagingCall witnessNetOk "inbox/messages",
      Op.synergiaGet witnessNetOk "Me"].foldl runOp witnessReadyClient =
      witnessReadyClient := by
  refine ⟨by decide, ?_, rfl, ?_⟩
  · exact claim_c9_flag_monotonic.1 "user" "pw" witnessTransport witnessClient
      (by decide)
  · exact claim_c9_flag_monotonic.2.2.2.2 witnessReadyClient
      [Op.messagingCall witnessNetOk "inbox/messages",
        Op.synergiaGet witnessNetOk "Me"] rfl

/-- The tag-stripping scan of `Client::notice_content_to_text`
(src/lib.rs:1050-1057): one left-to-right pass over the characters; `<`
enters tag state, `>` leaves it, characters outside a tag are kept,
characters inside a tag are dropped.  `<` and `>` themselves are never
emitted. -/
def stripScan (in_tag : Bool) : List Char → List Char
  | [] => []
  | c :: rest =>
    if c = '<' then stripScan true rest
    else if c = '>' then stripScan false rest
    else if in_tag then stripScan in_tag rest
    else c :: stripScan in_tag rest

/-- Bool test that `pat` occurs at the head of the second list. -/
def listStartsWith : List Char → List Char → Bool
  | [], _ => true
  | _ :: _, [] => false
  | p :: ps, c :: cs => p = c && listStartsWith ps cs

/-- One pass of Rust `str::replace` on character lists: replace each
leftmost, non-overlapping occurrence of `pat` by `repl`, scanning left to
right.  `fuel` bounds the recursion; `replaceAll` passes the input length,
which suffices because every step consumes at least one character (the
substitution table of the source never uses an empty pattern, and the
`!pat.isEmpty` guard makes the empty-pattern case a plain copy). -/
def replaceAllGo (pat repl : List Char) : Nat → List Char → List Char
  | _, [] => []
  | 0, s => s
  | fuel + 1, c :: rest =>
    if listStartsWith pat (c :: rest) && !pat.isEmpty then
      repl ++ replaceAllGo pat repl fuel ((c :: rest).drop pat.length)
    else
      c :: replaceAllGo pat repl fuel rest

/-- Rust `str::replace(pat, repl)` on character lists. -/
def replaceAll (pat repl s : List Char) : List Char :=
  replaceAllGo pat repl s.length s

/-- The Unicode `White_Space` code points, as tested by Rust
`char::is_whitespace` (used by `str::trim`). -/
def isRustWhitespace (c : Char) : Bool :=
  c = '\u0009' || c = '\u000A' || c = '\u000B' || c = '\u000C' ||
  c = '\u000D' || c = ' ' || c = '\u0085' || c = ' ' ||
  c = ' ' || (' ' ≤ c && c ≤ ' ') ||
  c = ' ' || c = ' ' || c = ' ' || c = ' ' ||
  c = '　'

/-- Rust `str::trim`: drop leading and trailing whitespace. -/
def trimChars (s : List Char) : List Char :=
  ((s.dropWhile isRustWhitespace).reverse.dropWhile isRustWhitespace).reverse

/-- `Client::notice_content_to_text` (src/lib.rs:1046-1069): strip tags in
a single scan, then apply the fixed six-entity substitution table in the
source's order, then trim surrounding whitespace. -/
def notice_content_to_text (content : String) : String :=
  let out := stripScan false content.data
  let out := replaceAll "&nbsp;".data " ".data out
  let out := replaceAll "&amp;".data "&".data out
  let out := replaceAll "&lt;".data "<".data out
  let out := replaceAll "&gt;".data ">".data out
  let out := replaceAll "&quot;".data "\"".data out
  let out := replaceAll "&#39;".data "'".data out
  String.mk (trimChars out)

example : notice_content_to_text "<p>Hello&nbsp;<b>World</b> &amp; friends</p>" =
    "Hello World & friends" := by decide

/-- Inside a tag whose closing `>` never comes, the scan emits nothing. -/
theorem stripScan_tag_no_close (l : List Char) (h : '>' ∉ l) :
    stripScan true l = [] := by
  induction l with
  | nil => rfl
  | cons c rest ih =>
    have hc : c ≠ '>' := fun hc => h (hc ▸ List.mem_cons_self c rest)
    have hr : '>' ∉ rest := fun hr => h (List.mem_cons_of_mem c hr)
    by_cases h1 : c = '<' <;> simp [stripScan, h1, hc, ih hr]

/-- Appending an unterminated tag (a `<` never followed by `>`) does not
change the scan's output: everything after the `<` is dropped. -/
theorem stripScan_append_lt (xs : List Char) (b : Bool) (suf : List Char)
    (h : '>' ∉ suf) :
    stripScan b (xs ++ '<' :: suf) = stripScan b xs := by
  induction xs generalizing b with
  | nil => simp [stripScan, stripScan_tag_no_close suf h]
  | cons c xs ih =>
    by_cases h1 : c = '<'
    · simp [stripScan, h1, ih true]
    · by_cases h2 : c = '>'
      · simp [stripScan, h1, h2, ih false]
      · cases b <;> simp [stripScan, h1, h2, ih]

/-- C6: on an input whose suffix after some `<` contains no `>` (an
unterminated tag), the transform's output is exactly the transform of the
text preceding that `<`; every character from the unmatched `<` on is
silently dropped. -/
theorem claim_c6_unterminated_tag (pre suf : String) (h : '>' ∉ suf.data) :
    notice_content_to_text (pre ++ "<" ++ suf) = notice_content_to_text pre := by
  simp only [notice_content_to_text]
  have hd : (pre ++ "<" ++ suf).data = (pre.data ++ ['<']) ++ suf.data := rfl
  rw [hd]
  simp only [List.append_assoc, List.singleton_append]
  rw [stripScan_append_lt pre.data false suf.data h]

theorem claim_c6_witness :
    '>' ∉ ("em unclosed tail" : String).data ∧
    notice_content_to_text ("ab<i>c</i>" ++ "<" ++ "em unclosed tail") =
      notice_content_to_text "ab<i>c</i>" ∧
    notice_content_to_text "ab<i>c</i>" = "abc" := by
  refine ⟨by decide, ?_, by decide⟩
  exact claim_c6_unterminated_tag "ab<i>c</i>" "em unclosed tail" (by decide)

/-- The scan never emits a `>` (every literal `>` is dropped). -/
theorem stripScan_not_mem_gt (b : Bool) (l : List Char) :
    '>' ∉ stripScan b l := by
  induction l generalizing b with
  | nil => simp [stripScan]
  | cons c rest ih =>
    by_cases h1 : c = '<'
    · simpa [stripScan, h1] using ih true
    · by_cases h2 : c = '>'
      · simpa [stripScan, h1, h2] using ih false
      · cases b
        · simpa [stripScan, h1, h2, List.mem_cons, ih false] using
            fun he => h2 he.symm
        · simpa [stripScan, h1, h2] using ih true

/-- The scan only ever emits characters of its input. -/
theorem stripScan_subset (b : Bool) (l : List Char) (x : Char)
    (hx : x ∈ stripScan b l) : x ∈ l := by
  induction l generalizing b with
  | nil => simp [stripScan] at hx
  | cons c rest ih =>
    simp only [stripScan] at hx
    split at hx
    · exact List.mem_cons_of_mem c (ih true hx)
    · split at hx
      · exact List.mem_cons_of_mem c (ih false hx)
      · split at hx
        · exact List.mem_cons_of_mem c (ih b hx)
        · rcases List.mem_cons.mp hx with h | h
          · exact h ▸ List.mem_cons_self c rest
          · exact List.mem_cons_of_mem c (ih b h)

/-- A replacement pass whose pattern starts with a character absent from
the input is the identity. -/
theorem replaceAllGo_no_head (p : Char) (ps repl : List Char) (fuel : Nat)
    (s : List Char) (h : p ∉ s) :
    replaceAllGo (p :: ps) repl fuel s = s := by
  induction fuel generalizing s with
  | zero => cases s <;> rfl
  | succ fuel ih =>
    cases s with
    | nil => rfl
    | cons c rest =>
      have hc : p ≠ c := fun hc => h (hc ▸ List.mem_cons_self c rest)
      have hr : p ∉ rest := fun hr => h (List.mem_cons_of_mem c hr)
      simp [replaceAllGo, listStartsWith, hc, ih rest hr]

/-- `trimChars` only ever keeps characters of its input. -/
theorem trimChars_subset (s : List Char) (x : Char) (hx : x ∈ trimChars s) :
    x ∈ s := by
  unfold trimChars at hx
  rw [List.mem_reverse] at hx
  have h1 := (List.dropWhile_suffix isRustWhitespace).subset hx
  rw [List.mem_reverse] at h1
  exact (List.dropWhile_suffix isRustWhitespace).subset h1

/-- C10: the scan drops every literal `>` of the input, whether or not it
follows an unmatched `<`; consequently, on inputs containing no `&` (so no
entity substitution can fire) the transform's output contains no `>` at
all — the only `>` characters in any output are the ones produced by the
`&gt;` substitution. -/
theorem claim_c10_bare_gt_dropped (content : String) :
    '>' ∉ stripScan false content.data ∧
    ('&' ∉ content.data → '>' ∉ (notice_content_to_text content).data) := by
  constructor
  · exact stripScan_not_mem_gt false content.data
  · intro hamp
    have hscan : '&' ∉ stripScan false content.data :=
      fun hm => hamp (stripScan_subset false content.data '&' hm)
    intro hgt
    simp only [notice_content_to_text, replaceAll] at hgt
    rw [replaceAllGo_no_head '&' "nbsp;".data " ".data _ _ hscan] at hgt
    rw [replaceAllGo_no_head '&' "amp;".data "&".data _ _ hscan] at hgt
    rw [replaceAllGo_no_head '&' "lt;".data "<".data _ _ hscan] at hgt
    rw [replaceAllGo_no_head '&' "gt;".data ">".data _ _ hscan] at hgt
    rw [replaceAllGo_no_head '&' "quot;".data "\"".data _ _ hscan] at hgt
    rw [replaceAllGo_no_head '&' "#39;".data "'".data _ _ hscan] at hgt
    exact stripScan_not_mem_gt false content.data
      (trimChars_subset _ '>' hgt)

theorem claim_c10_witness :
    '&' ∉ ("a>b" : String).data ∧
    '>' ∉ (notice_content_to_text "a>b").data ∧
    notice_content_to_text "a>b" = "ab" := by
  refine ⟨by decide, ?_, by decide⟩
  exact (claim_c10_bare_gt_dropped "a>b").2 (by decide)

/-- The alphabet of the `base64` crate's `general_purpose::STANDARD`
engine (RFC 4648 standard alphabet). -/
def b64Alphabet : List Char :=
  "ABCDEFGHIJKLMNOPQRSTUVWXYZabcdefghijklmnopqrstuvwxyz0123456789+/".data

/-- The alphabet character of one sextet value. -/
def b64EncChar (n : Nat) : Char := b64Alphabet.getD n 'A'

/-- Inverse alphabet lookup: `some` sextet value for alphabet characters,
`none` for everything else (including the pad `=`). -/
def b64DecChar (c : Char) : Option Nat :=
  if 'A' ≤ c ∧ c ≤ 'Z' then some (c.toNat - 65)
  else if 'a' ≤ c ∧ c ≤ 'z' then some (c.toNat - 71)
  else if '0' ≤ c ∧ c ≤ '9' then some (c.toNat + 4)
  else if c = '+' then some 62
  else if c = '/' then some 63
  else none

/-- Standard base64 encoding with padding, as `STANDARD.encode` produces.
Bytes are `Nat` values below 256. -/
def base64Encode : List Nat → List Char
  | [] => []
  | [b1] => [b64EncChar (b1 / 4), b64EncChar (b1 % 4 * 16), '=', '=']
  | [b1, b2] =>
      [b64EncChar (b1 / 4), b64EncChar (b1 % 4 * 16 + b2 / 16),
        b64EncChar (b2 % 16 * 4), '=']
  | b1 :: b2 :: b3 :: rest =>
      b64EncChar (b1 / 4) :: b64EncChar (b1 % 4 * 16 + b2 / 16) ::
        b64EncChar (b2 % 16 * 4 + b3 / 64) :: b64EncChar (b3 % 64) ::
        base64Encode rest

/-- Strict standard base64 decode as `STANDARD.decode`: the length must be
a multiple of four, padding only in the final quantum and canonical (the
engine rejects non-zero trailing bits), every other character from the
standard alphabet. -/
def base64Decode : List Char → Option (List Nat)
  | [] => some []
  | c1 :: c2 :: c3 :: c4 :: rest =>
    (match b64DecChar c1, b64DecChar c2 with
    | some n1, some n2 =>
      if c3 = '=' then
        if c4 = '=' ∧ rest = [] ∧ n2 % 16 = 0 then
          some [n1 * 4 + n2 / 16]
        else none
      else
        match b64DecChar c3 with
        | some n3 =>
          if c4 = '=' then
            if rest = [] ∧ n3 % 4 = 0 then
              some [n1 * 4 + n2 / 16, n2 % 16 * 16 + n3 / 4]
            else none
          else
            match b64DecChar c4 with
            | some n4 =>
              match base64Decode rest with
              | some bs =>
                some ((n1 * 4 + n2 / 16) :: (n2 % 16 * 16 + n3 / 4) ::
                  (n3 % 4 * 64 + n4) :: bs)
              | none => none
            | none => none
        | none => none
    | _, _ => none)
  | _ => none

/-- UTF-8 encoding of one Unicode scalar value. -/
def utf8EncodeChar (c : Char) : List Nat :=
  let n := c.toNat
  if n < 128 then [n]
  else if n < 2048 then [192 + n / 64, 128 + n % 64]
  else if n < 65536 then [224 + n / 4096, 128 + n / 64 % 64, 128 + n % 64]
  else [240 + n / 262144, 128 + n / 4096 % 64, 128 + n / 64 % 64, 128 + n % 64]

/-- The UTF-8 byte sequence of a string (Rust `str::as_bytes`). -/
def utf8Encode (s : String) : List Nat :=
  (s.data.map utf8EncodeChar).flatten

/-- UTF-8 continuation byte test. -/
def isCont (b : Nat) : Bool := 128 ≤ b && b < 192

/-- Validating UTF-8 decoder (Rust `String::from_utf8`), fuel-indexed for
structural recursion: rejects stray continuation bytes, truncated
sequences, overlong encodings, surrogate code points and values beyond
U+10FFFF.  Each decoded character consumes one unit of fuel, so fuel equal
to the byte count (as `utf8Decode` supplies) is always enough; running out
of fuel on a nonempty input rejects, which unspent fuel never causes. -/
def utf8DecodeGo : Nat → List Nat → Option (List Char)
  | _, [] => some []
  | 0, _ :: _ => none
  | fuel + 1, b :: rest =>
    if b < 128 then
      (utf8DecodeGo fuel rest).map (fun cs => Char.ofNat b :: cs)
    else if b < 192 then none
    else if b < 224 then
      match rest with
      | b2 :: rest2 =>
        if isCont b2 then
          let n := (b - 192) * 64 + (b2 - 128)
          if 128 ≤ n then
            (utf8DecodeGo fuel rest2).map (fun cs => Char.ofNat n :: cs)
          else none
        else none
      | [] => none
    else if b < 240 then
      match rest with
      | b2 :: b3 :: rest2 =>
        if isCont b2 && isCont b3 then
          let n := (b - 224) * 4096 + (b2 - 128) * 64 + (b3 - 128)
          if 2048 ≤ n ∧ ¬(55296 ≤ n ∧ n < 57344) then
            (utf8DecodeGo fuel rest2).map (fun cs => Char.ofNat n :: cs)
          else none
        else none
      | _ => none
    else if b < 248 then
      match rest with
      | b2 :: b3 :: b4 :: rest2 =>
        if isCont b2 && isCont b3 && isCont b4 then
          let n := (b - 240) * 262144 + (b2 - 128) * 4096 +
            (b3 - 128) * 64 + (b4 - 128)
          if 65536 ≤ n ∧ n < 1114112 then
            (utf8DecodeGo fuel rest2).map (fun cs => Char.ofNat n :: cs)
          else none
        else none
      | _ => none
    else none

/-- Validating UTF-8 decoding of a byte list (Rust `String::from_utf8`). -/
def utf8Decode (l : List Nat) : Option (List Char) :=
  utf8DecodeGo l.length l

/-- `Client::decode_message_content` (src/lib.rs:1024-1030): strict
standard base64 decode, then UTF-8 validation of the bytes; `None` when
either step fails. -/
def decode_message_content (content : String) : Option String :=
  match base64Decode content.data with
  | none => none
  | some bytes =>
    match utf8Decode bytes with
    | none => none
    | some cs => some (String.mk cs)

example : decode_message_content "SGVsbG8sIFdvcmxkIQ==" =
    some "Hello, World!" := by decide

example : decode_message_content "not valid base64!!!" = none := by decide

example : String.mk (base64Encode (utf8Encode "Hello, World!")) =
    "SGVsbG8sIFdvcmxkIQ==" := by decide

example : String.mk (base64Encode (utf8Encode "zażółć π 🙂")) =
    "emHFvMOzxYLEhyDPgCDwn5mC" := by decide

example : decode_message_content "emHFvMOzxYLEhyDPgCDwn5mC" =
    some "zażółć π 🙂" := by decide

/-- Alphabet decoding inverts alphabet encoding on every sextet value. -/
theorem b64_dec_enc : ∀ n, n < 64 → b64DecChar (b64EncChar n) = some n := by decide

/-- Alphabet characters are never the pad character. -/
theorem b64_enc_ne_pad : ∀ n, n < 64 → b64EncChar n ≠ '=' := by decide

/-- Strict standard base64 decoding inverts encoding on byte lists. -/
theorem base64_roundtrip : ∀ (bs : List Nat), (∀ b ∈ bs, b < 256) →
    base64Decode (base64Encode bs) = some bs
  | [], _ => rfl
  | [b1], h => by
      have h1 : b1 < 256 := h b1 (by simp)
      simp only [base64Encode, base64Decode,
        b64_dec_enc (b1 / 4) (by omega), b64_dec_enc (b1 % 4 * 16) (by omega)]
      rw [if_pos trivial,
        if_pos (show True ∧ True ∧ b1 % 4 * 16 % 16 = 0 from ⟨trivial, trivial, by omega⟩)]
      simp only [Option.some.injEq, List.cons.injEq, and_true]
      omega
  | [b1, b2], h => by
      have h1 : b1 < 256 := h b1 (by simp)
      have h2 : b2 < 256 := h b2 (by simp)
      simp only [base64Encode, base64Decode,
        b64_dec_enc (b1 / 4) (by omega),
        b64_dec_enc (b1 % 4 * 16 + b2 / 16) (by omega),
        b64_dec_enc (b2 % 16 * 4) (by omega)]
      rw [if_neg (b64_enc_ne_pad (b2 % 16 * 4) (by omega)), if_pos trivial,
        if_pos (show True ∧ b2 % 16 * 4 % 4 = 0 from ⟨trivial, by omega⟩)]
      simp only [Option.some.injEq, List.cons.injEq, and_true]
      omega
  | b1 :: b2 :: b3 :: rest, h => by
      have h1 : b1 < 256 := h b1 (by simp)
      have h2 : b2 < 256 := h b2 (by simp)
      have h3 : b3 < 256 := h b3 (by simp)
      have ih := base64_roundtrip rest (fun b hb => h b (by simp [hb]))
      simp only [base64Encode, base64Decode,
        b64_dec_enc (b1 / 4) (by omega),
        b64_dec_enc (b1 % 4 * 16 + b2 / 16) (by omega),
        b64_dec_enc (b2 % 16 * 4 + b3 / 64) (by omega),
        b64_dec_enc (b3 % 64) (by omega)]
      rw [if_neg (b64_enc_ne_pad (b2 % 16 * 4 + b3 / 64) (by omega)),
        if_neg (b64_enc_ne_pad (b3 % 64) (by omega)), ih]
      simp only [Option.some.injEq, List.cons.injEq, and_true]
      omega

/-- Every scalar value of a `Char` is below the surrogate range or between
the surrogates and U+110000. -/
theorem char_scalar_range (c : Char) :
    c.toNat < 55296 ∨ (57344 ≤ c.toNat ∧ c.toNat < 1114112) := by
  have h := c.valid
  unfold UInt32.isValidChar Nat.isValidChar at h
  rcases h with h | h
  · exact Or.inl h
  · exact Or.inr h

/-- The character encoder emits only byte values. -/
theorem utf8EncodeChar_lt (c : Char) : ∀ b ∈ utf8EncodeChar c, b < 256 := by
  have hv := char_scalar_range c
  intro b hb
  simp only [utf8EncodeChar] at hb
  split at hb
  · simp at hb; omega
  · split at hb
    · simp at hb; omega
    · split at hb
      · simp at hb; omega
      · simp at hb; omega

/-- Decoding one encoded character at the head of a byte stream consumes
exactly its bytes (and one unit of fuel) and yields the character back. -/
theorem utf8DecodeGo_encodeChar (c : Char) (fuel : Nat) (tail : List Nat)
    (cs : List Char) (htail : utf8DecodeGo fuel tail = some cs) :
    utf8DecodeGo (fuel + 1) (utf8EncodeChar c ++ tail) = some (c :: cs) := by
  have hv := char_scalar_range c
  have hofNat : Char.ofNat c.toNat = c := Char.ofNat_toNat c
  by_cases hr1 : c.toNat < 128
  · rw [show utf8EncodeChar c = [c.toNat] from by simp [utf8EncodeChar, hr1]]
    simp only [List.append_eq, List.cons_append, List.nil_append, utf8DecodeGo,
      if_pos hr1, htail, Option.map_some', hofNat]
  · by_cases hr2 : c.toNat < 2048
    · rw [show utf8EncodeChar c = [192 + c.toNat / 64, 128 + c.toNat % 64] from by
        simp [utf8EncodeChar, hr1, hr2]]
      simp only [List.append_eq, List.cons_append, List.nil_append, utf8DecodeGo]
      rw [if_neg (by omega), if_neg (by omega), if_pos (by omega),
        if_pos (show isCont (128 + c.toNat % 64) = true by
          simp only [isCont, Bool.and_eq_true, decide_eq_true_eq]; omega)]
      rw [show (192 + c.toNat / 64 - 192) * 64 + (128 + c.toNat % 64 - 128) =
        c.toNat from by omega]
      rw [if_pos (by omega), htail, Option.map_some', hofNat]
    · by_cases hr3 : c.toNat < 65536
      · rw [show utf8EncodeChar c = [224 + c.toNat / 4096,
          128 + c.toNat / 64 % 64, 128 + c.toNat % 64] from by
            simp [utf8EncodeChar, hr1, hr2, hr3]]
        simp only [List.append_eq, List.cons_append, List.nil_append, utf8DecodeGo]
        rw [if_neg (by omega), if_neg (by omega), if_neg (by omega),
          if_pos (by omega),
          if_pos (show (isCont (128 + c.toNat / 64 % 64) &&
              isCont (128 + c.toNat % 64)) = true by
            simp only [isCont, Bool.and_eq_true, decide_eq_true_eq]; omega)]
        rw [show (224 + c.toNat / 4096 - 224) * 4096 +
          (128 + c.toNat / 64 % 64 - 128) * 64 + (128 + c.toNat % 64 - 128) =
          c.toNat from by omega]
        rw [if_pos (by omega), htail, Option.map_some', hofNat]
      · rw [show utf8EncodeChar c = [240 + c.toNat / 262144,
          128 + c.toNat / 4096 % 64, 128 + c.toNat / 64 % 64,
          128 + c.toNat % 64] from by simp [utf8EncodeChar, hr1, hr2, hr3]]
        simp only [List.append_eq, List.cons_append, List.nil_append, utf8DecodeGo]
        rw [if_neg (by omega), if_neg (by omega), if_neg (by omega),
          if_neg (by omega), if_pos (by omega),
          if_pos (show (isCont (128 + c.toNat / 4096 % 64) &&
              isCont (128 + c.toNat / 64 % 64) &&
              isCont (128 + c.toNat % 64)) = true by
            simp only [isCont, Bool.and_eq_true, decide_eq_true_eq]; omega)]
        rw [show (240 + c.toNat / 262144 - 240) * 262144 +
          (128 + c.toNat / 4096 % 64 - 128) * 4096 +
          (128 + c.toNat / 64 % 64 - 128) * 64 + (128 + c.toNat % 64 - 128) =
          c.toNat from by omega]
        rw [if_pos (by omega), htail, Option.map_some', hofNat]

/-- The encoder emits at least one byte per character. -/
theorem utf8EncodeChar_length_pos (c : Char) : 1 ≤ (utf8EncodeChar c).length := by
  simp only [utf8EncodeChar]
  repeat' split
  all_goals simp

/-- The byte sequence is at least as long as the character sequence. -/
theorem utf8Encode_length_ge (cs : List Char) :
    cs.length ≤ ((cs.map utf8EncodeChar).flatten).length := by
  induction cs with
  | nil => simp
  | cons c cs ih =>
    simp only [List.map_cons, List.flatten_cons, List.length_append,
      List.length_cons]
    have := utf8EncodeChar_length_pos c
    omega

/-- The validating decoder inverts the encoder on character lists, for any
fuel of at least one unit per character. -/
theorem utf8_roundtrip_go : ∀ (cs : List Char) (extra : Nat),
    utf8DecodeGo (cs.length + extra) ((cs.map utf8EncodeChar).flatten) = some cs
  | [], extra => by simp [utf8DecodeGo]
  | c :: cs, extra => by
      have ih := utf8_roundtrip_go cs extra
      simp only [List.map_cons, List.flatten_cons, List.length_cons]
      rw [show cs.length + 1 + extra = cs.length + extra + 1 from by omega]
      exact utf8DecodeGo_encodeChar c (cs.length + extra) _ cs ih

/-- The validating decoder inverts `utf8Encode` on strings. -/
theorem utf8Encode_roundtrip (s : String) :
    utf8Decode (utf8Encode s) = some s.data := by
  unfold utf8Decode utf8Encode
  have hle := utf8Encode_length_ge s.data
  rw [show ((s.data.map utf8EncodeChar).flatten).length =
    s.data.length +
      (((s.data.map utf8EncodeChar).flatten).length - s.data.length) from by
    omega]
  exact utf8_roundtrip_go s.data _

/-- All bytes of an encoded string are byte values. -/
theorem utf8Encode_lt (s : String) : ∀ b ∈ utf8Encode s, b < 256 := by
  intro b hb
  unfold utf8Encode at hb
  rw [List.mem_flatten] at hb
  obtain ⟨l, hl, hbl⟩ := hb
  rw [List.mem_map] at hl
  obtain ⟨c, _, rfl⟩ := hl
  exact utf8EncodeChar_lt c b hbl

/-- C7: `decode_message_content` is a left inverse of standard base64
encoding on valid text: decoding the standard base64 encoding of the UTF-8
bytes of any string yields `some` of that very string. -/
theorem claim_c7_decode_left_inverse (s : String) :
    decode_message_content (String.mk (base64Encode (utf8Encode s))) = some s := by
  simp only [decode_message_content,
    base64_roundtrip (utf8Encode s) (utf8Encode_lt s), utf8Encode_roundtrip s]

end LibrusRs
